import Mathlib

/-!
Shallow embedding of the kanban task-manager core (single React source file).
Pure functions of the source are translated as Lean functions; the stateful
`setTasks` updates become functions from the task collection to a new
collection.  JavaScript strings are modelled as Lean `String`s, `null` fields
as `Option`, machine timestamps (`new Date().toISOString()`) as opaque strings
supplied as a `now` parameter, and "today" (a local-midnight `Date`) as its
civil day number (an `Int` parameter).
-/

namespace Kanban

/-- The fixed ordered stage enumeration `COLUMNS` of the source. -/
def COLUMNS : List String := ["Backlog", "In Progress", "Review/QA", "Completed"]

/-- `MAX_TITLE` from the source. -/
def MAX_TITLE : Nat := 100

/-- `MAX_NOTES` from the source. -/
def MAX_NOTES : Nat := 2000

/-- A task record as created by `saveTask`: the six draft fields plus
`id`, `createdAt` and `completedAt` (`null` modelled as `none`). -/
structure Task where
  id : String
  title : String
  priority : String
  category : String
  due : String
  notes : String
  stage : String
  createdAt : String
  completedAt : Option String
deriving DecidableEq, Repr

/-- The form data (`formData` / `DEFAULT_TASK` shape): the six editable
fields of a task. -/
structure Draft where
  title : String
  priority : String
  category : String
  due : String
  notes : String
  stage : String
deriving DecidableEq, Repr

/-- The `errs` mapping returned by `validateForm`: at most one message per
field (`title`, `notes`); a later assignment to the same field overwrites an
earlier one, as JavaScript property assignment does. -/
structure Errors where
  title : Option String
  notes : Option String
deriving DecidableEq, Repr

/-- `Object.keys(errs).length === 0`: no field carries an error. -/
def Errors.isEmpty (e : Errors) : Bool := e.title.isNone && e.notes.isNone

/-- Is `c` one of the whitespace characters stripped by `trim`?  Modelled for
the ASCII whitespace range; the source's JavaScript `trim` also strips some
Unicode spaces, which do not occur in this development. -/
def isJsSpace (c : Char) : Bool :=
  c = ' ' || c = '\t' || c = '\n' || c = '\r'

/-- Drop leading JS whitespace from a character list. -/
def dropLeading : List Char → List Char
  | [] => []
  | c :: cs => if isJsSpace c then dropLeading cs else c :: cs

/-- `str.trim()` on the modelled whitespace set. -/
def jsTrim (s : String) : String :=
  String.mk ((dropLeading ((dropLeading s.toList).reverse)).reverse)

/-- `validateForm(data)` from the source: empty trimmed title sets a title
error, an over-long title overwrites the title error, over-long notes set a
notes error. -/
def validateForm (data : Draft) : Errors :=
  let e0 : Errors := ⟨none, none⟩
  let e1 := if jsTrim data.title = "" then { e0 with title := some "Title is required." } else e0
  let e2 := if data.title.length > MAX_TITLE then { e1 with title := some "Max 100 characters." } else e1
  if data.notes.length > MAX_NOTES then { e2 with notes := some "Max 2000 characters." } else e2

/-- `COLUMNS.indexOf(s)`: index of the first occurrence, `-1` when absent. -/
def jsIndexOfAux : List String → Int → String → Int
  | [], _, _ => -1
  | c :: cs, i, s => if c == s then i else jsIndexOfAux cs (i + 1) s

/-- JavaScript `Array.prototype.indexOf` on a list of strings. -/
def jsIndexOf (l : List String) (s : String) : Int := jsIndexOfAux l 0 s

/-- `COLUMNS[i]` for an arbitrary integer index: `undefined` (here `none`)
when out of bounds. -/
def colAt (i : Int) : Option String :=
  if i < 0 then none else COLUMNS.get? i.toNat

/-- The per-element function of `saveTask`'s update branch:
`x.id === editId ? { ...x, ...formData } : x`.  Spreading `formData`
replaces exactly the six draft fields and keeps `id`, `createdAt`,
`completedAt`. -/
def updateTaskOne (editId : String) (d : Draft) (x : Task) : Task :=
  if x.id == editId then
    { x with title := d.title, priority := d.priority, category := d.category,
             due := d.due, notes := d.notes, stage := d.stage }
  else x

/-- `saveTask` with `editId` set: validates first and makes no change on a
validation error, otherwise maps `updateTaskOne` over the collection. -/
def updateTask (tasks : List Task) (editId : String) (d : Draft) : List Task :=
  if (validateForm d).isEmpty then tasks.map (updateTaskOne editId d) else tasks

/-- `saveTask` without `editId`: validates first and makes no change on a
validation error, otherwise appends `{ ...formData, id, createdAt,
completedAt: null }`. -/
def createTask (tasks : List Task) (d : Draft) (newId now : String) : List Task :=
  if (validateForm d).isEmpty then
    tasks ++ [{ id := newId, title := d.title, priority := d.priority,
                category := d.category, due := d.due, notes := d.notes,
                stage := d.stage, createdAt := now, completedAt := none }]
  else tasks

/-- The per-element function of `moveTask`: a non-matching id is returned
unchanged; otherwise `COLUMNS[COLUMNS.indexOf(x.stage) + dir]` is looked up,
an out-of-bounds result (`undefined`) makes the move a no-op, and an
in-bounds result sets `stage` and stamps or clears `completedAt`. -/
def moveTaskOne (id : String) (dir : Int) (now : String) (x : Task) : Task :=
  if x.id == id then
    match colAt (jsIndexOf COLUMNS x.stage + dir) with
    | none => x
    | some next =>
        { x with stage := next,
                 completedAt := if next == "Completed" then some now else none }
  else x

/-- `moveTask(id, dir)` from the source. -/
def moveTask (tasks : List Task) (id : String) (dir : Int) (now : String) : List Task :=
  tasks.map (moveTaskOne id dir now)

/-- The per-element function of `onDrop`'s `setTasks` call. -/
def setStageOne (id col now : String) (x : Task) : Task :=
  if x.id == id then
    { x with stage := col,
             completedAt := if col == "Completed" then some now else none }
  else x

/-- `onDrop(e, col)` with `dragging = id`: looks the task up; only when it
exists and its stage differs from the target column is the collection
mapped, otherwise it is returned unchanged. -/
def setStage (tasks : List Task) (id col now : String) : List Task :=
  match tasks.find? (fun x => x.id == id) with
  | some task => if task.stage != col then tasks.map (setStageOne id col now) else tasks
  | none => tasks

/-- The per-element function of `saveNote`'s `setTasks` call. -/
def saveNoteOne (id text : String) (x : Task) : Task :=
  if x.id == id then { x with notes := text } else x

/-- `saveNote` with `activeNote = id` and `noteText = text`: rejected (no
change) when the text exceeds `MAX_NOTES`, otherwise replaces `notes` on the
matching task. -/
def saveNote (tasks : List Task) (id text : String) : List Task :=
  if text.length > MAX_NOTES then tasks
  else tasks.map (saveNoteOne id text)

/-- `deleteTask(id)`: keeps exactly the tasks whose id differs. -/
def deleteTask (tasks : List Task) (id : String) : List Task :=
  tasks.filter (fun x => x.id != id)

/-- Number of tasks with stage `"Completed"` (the `c` of the progress
stats). -/
def completedCount (tasks : List Task) : Nat :=
  (tasks.filter (fun x => x.stage == "Completed")).length

/-- `pct` of the progress stats: `Math.round((c / tasks.length) * 100)` and
`0` for an empty collection.  `Math.round` (round half towards positive
infinity) is modelled by Mathlib's `round` on exact rationals. -/
def pct (tasks : List Task) : ℤ :=
  if tasks.length = 0 then 0
  else round (((completedCount tasks : ℚ) / (tasks.length : ℚ)) * 100)

/-- A JavaScript `Date` as produced by `new Date(y, m, d)`: either an
Invalid Date (some component was `NaN`) or a valid date, identified by its
civil day number (days since 1970-01-01).  Comparison of two local-midnight
`Date` objects agrees with comparison of their day numbers. -/
inductive JSDate where
  | invalid
  | valid (days : Int)
deriving DecidableEq, Repr

/-- Split a character list at `'-'` (auxiliary for `splitDash`). -/
def splitDashAux : List Char → List Char → List (List Char)
  | [], acc => [acc.reverse]
  | c :: cs, acc =>
      if c = '-' then acc.reverse :: splitDashAux cs []
      else splitDashAux cs (c :: acc)

/-- `str.split('-')` from the source (single-character separator). -/
def splitDash (s : String) : List String :=
  (splitDashAux s.toList []).map String.mk

/-- Numeric value of a digit list, most significant first. -/
def digitsVal (cs : List Char) : Nat :=
  cs.foldl (fun n c => n * 10 + (c.toNat - 48)) 0

/-- JavaScript `Number(part)` on the parts produced by splitting a date
string at `'-'` (such parts never contain a sign, decimal point or
exponent): the empty string converts to `0`, a digit string to its value,
anything else to `NaN` (modelled as `none`). -/
def jsNumber? (s : String) : Option Int :=
  let cs := s.toList
  if cs.isEmpty then some 0
  else if cs.all Char.isDigit then some (Int.ofNat (digitsVal cs))
  else none

/-- Civil day number of a valid proleptic-Gregorian date (`m` in `1..12`),
days since 1970-01-01; the day numbering used by ECMAScript `MakeDay`. -/
def daysFromCivil (y m d : Int) : Int :=
  let y2 := y - (if m ≤ 2 then 1 else 0)
  let era := Int.ediv y2 400
  let yoe := y2 - era * 400
  let mp := Int.emod (m + 9) 12
  let doy := Int.ediv (153 * mp + 2) 5 + d - 1
  let doe := yoe * 365 + Int.ediv yoe 4 - Int.ediv yoe 100 + doy
  era * 146097 + doe - 719468

/-- ECMAScript `new Date(y, m, d)` day computation for arbitrary integer
arguments: a two-digit year is offset to `19xx` (`MakeFullYear`), the month
index is normalised into `0..11` carrying into the year, and the day is an
offset from the first of that month. -/
def makeDay (y m d : Int) : Int :=
  let yy := if 0 ≤ y ∧ y ≤ 99 then 1900 + y else y
  let ym := yy + Int.ediv m 12
  let mn := Int.emod m 12
  daysFromCivil ym (mn + 1) 1 + (d - 1)

/-- `parseLocalDate(str)` from the source: `null` (here `none`) for an empty
string; otherwise the string is split at `'-'`, the first three parts are
converted with `Number`, and `new Date(y, m - 1, d)` is built — an Invalid
Date when any needed part is `NaN` or missing. -/
def parseLocalDate (s : String) : Option JSDate :=
  if s = "" then none
  else
    match (splitDash s).map jsNumber? with
    | some y :: some m :: some d :: _ => some (JSDate.valid (makeDay y (m - 1) d))
    | _ => some JSDate.invalid

/-- `dueDate < today` where `today` is a local-midnight `Date` with civil
day number `t`: comparison with an Invalid Date (`NaN` time value) is
false. -/
def jsDateLtDay : JSDate → Int → Bool
  | JSDate.invalid, _ => false
  | JSDate.valid n, t => n < t

/-- `isOverdue(due, stage)` from the source, with "today" passed as its
civil day number. -/
def isOverdue (due stage : String) (todayDay : Int) : Bool :=
  if due == "" || stage == "Completed" then false
  else
    match parseLocalDate due with
    | none => false
    | some d => jsDateLtDay d todayDay

/-- `formatDate(str)` from the source: empty for an empty string, otherwise
the locale rendering of the parsed date.  `toLocaleDateString` depends on
the runtime locale and is passed in as `render`; `parseLocalDate` never
returns `null` on a non-empty string, so the source's `d ? ... : ''`
fallback is the `none` branch here. -/
def formatDate (render : JSDate → String) (s : String) : String :=
  if s = "" then ""
  else
    match parseLocalDate s with
    | none => ""
    | some d => render d

/-- One row of the export sheet, in the fixed column order of
`exportToExcel`. -/
structure Row where
  taskName : String
  category : String
  priority : String
  stage : String
  dueDate : String
  notes : String
  created : String
  completed : String
deriving DecidableEq, Repr

/-- The row projection of `exportToExcel`: `formatDate` is applied to the
due date, creation timestamp and completion timestamp; a `null`
`completedAt` reaches `formatDate` as a falsy value and yields the empty
string. -/
def projectRow (render : JSDate → String) (x : Task) : Row :=
  { taskName := x.title, category := x.category, priority := x.priority,
    stage := x.stage, dueDate := formatDate render x.due, notes := x.notes,
    created := formatDate render x.createdAt,
    completed := match x.completedAt with
                 | none => ""
                 | some s => formatDate render s }

/-- `exportToExcel(filter)` up to the spreadsheet write: selects the data
per scope, signals the no-data condition on an empty selection, and
otherwise produces the projected rows (the library calls that turn rows
into a file are the external export backend). -/
def exportReport (render : JSDate → String) (tasks : List Task) (scope : String) :
    Except String (List Row) :=
  let data := if scope == "completed" then tasks.filter (fun x => x.stage == "Completed") else tasks
  if data.isEmpty then Except.error "No tasks to export."
  else Except.ok (data.map (projectRow render))

/-- JSON values, restricted to the fragment produced by serialising the
task collection (strings, `null`, arrays, objects with ordered fields).
`JSON.stringify` and `JSON.parse` are mutually inverse between this value
space and its textual rendering, so persistence is modelled at the value
level. -/
inductive Json where
  | str (s : String)
  | null
  | arr (xs : List Json)
  | obj (fields : List (String × Json))

/-- Field lookup in a serialised object (first match, as `JSON.parse`
produces no duplicate keys from `JSON.stringify` output). -/
def getField : List (String × Json) → String → Option Json
  | [], _ => none
  | (k, v) :: fs, key => if k == key then some v else getField fs key

/-- Serialisation of one task, fields in JavaScript property-creation order
(`{ ...formData, id, createdAt, completedAt }`). -/
def encodeTask (t : Task) : Json :=
  Json.obj [("title", Json.str t.title), ("priority", Json.str t.priority),
            ("category", Json.str t.category), ("due", Json.str t.due),
            ("notes", Json.str t.notes), ("stage", Json.str t.stage),
            ("id", Json.str t.id), ("createdAt", Json.str t.createdAt),
            ("completedAt", match t.completedAt with
                            | none => Json.null
                            | some s => Json.str s)]

/-- `JSON.stringify(tasks)` at the value level: the array of serialised
tasks. -/
def encodeTasks (tasks : List Task) : Json := Json.arr (tasks.map encodeTask)

/-- Reading one task record back from its serialised form. -/
def decodeTask : Json → Option Task
  | Json.obj fs =>
      match getField fs "id", getField fs "title", getField fs "priority",
            getField fs "category", getField fs "due", getField fs "notes",
            getField fs "stage", getField fs "createdAt", getField fs "completedAt" with
      | some (Json.str id), some (Json.str title), some (Json.str priority),
        some (Json.str category), some (Json.str due), some (Json.str notes),
        some (Json.str stage), some (Json.str createdAt), some comp =>
          match comp with
          | Json.null => some ⟨id, title, priority, category, due, notes, stage, createdAt, none⟩
          | Json.str c => some ⟨id, title, priority, category, due, notes, stage, createdAt, some c⟩
          | _ => none
      | _, _, _, _, _, _, _, _, _ => none
  | _ => none

/-- Element-wise decoding of the serialised array. -/
def decodeList : List Json → Option (List Task)
  | [] => some []
  | j :: js =>
      match decodeTask j, decodeList js with
      | some t, some ts => some (t :: ts)
      | _, _ => none

/-- `JSON.parse` of the stored value back into a task collection. -/
def decodeTasks : Json → Option (List Task)
  | Json.arr xs => decodeList xs
  | _ => none

/-- The mutation operations of the store, each carrying the
environment-supplied values (fresh id, current timestamp) it reads. -/
inductive Op where
  | createOp (d : Draft) (newId now : String)
  | updateOp (id : String) (d : Draft)
  | moveOp (id : String) (dir : Int) (now : String)
  | dropOp (id col now : String)
  | noteOp (id text : String)
  | delOp (id : String)

/-- Apply one mutation operation to the collection. -/
def applyOp (tasks : List Task) : Op → List Task
  | Op.createOp d newId now => createTask tasks d newId now
  | Op.updateOp id d => updateTask tasks id d
  | Op.moveOp id dir now => moveTask tasks id dir now
  | Op.dropOp id col now => setStage tasks id col now
  | Op.noteOp id text => saveNote tasks id text
  | Op.delOp id => deleteTask tasks id

/-- Apply a sequence of mutation operations, first to last. -/
def applyOps (tasks : List Task) (ops : List Op) : List Task :=
  ops.foldl applyOp tasks

/-- The completion invariant: every task has `completedAt` present iff its
stage is `"Completed"`. -/
def InvariantB (tasks : List Task) : Bool :=
  tasks.all (fun t => t.completedAt.isSome == (t.stage == "Completed"))

/-- The operations under which the completion invariant is actually
preserved by the source: everything except `update`, and `create` only when
the draft's chosen stage is not `"Completed"`. -/
def goodOp : Op → Bool
  | Op.updateOp _ _ => false
  | Op.createOp d _ _ => d.stage != "Completed"
  | _ => true

/-! Helper lemmas -/

/-- A map whose function fixes every element of the list is the identity. -/
theorem map_eq_self_of {α : Type} (f : α → α) :
    ∀ l : List α, (∀ x ∈ l, f x = x) → l.map f = l
  | [], _ => rfl
  | x :: xs, h => by
      have hx := h x (by simp)
      have hxs := map_eq_self_of f xs (fun y hy => h y (by simp [hy]))
      simp [hx, hxs]

/-! Claims -/

/-- C5: `validateForm` returns the empty error mapping exactly when the
trimmed title is non-empty, the title has at most 100 characters and the
notes have at most 2000; an empty trimmed title yields "Title is required.",
an over-long title yields "Max 100 characters." (overwriting the empty-title
message when both rules fire), and over-long notes yield "Max 2000
characters.".  `validateForm` is a Lean function of the draft, so it cannot
mutate its argument. -/
theorem claim5_validateForm (d : Draft) :
    (((validateForm d).title = none ∧ (validateForm d).notes = none) ↔
      (jsTrim d.title ≠ "" ∧ d.title.length ≤ MAX_TITLE ∧ d.notes.length ≤ MAX_NOTES)) ∧
    (jsTrim d.title = "" → d.title.length ≤ MAX_TITLE →
      (validateForm d).title = some "Title is required.") ∧
    (d.title.length > MAX_TITLE → (validateForm d).title = some "Max 100 characters.") ∧
    (d.notes.length > MAX_NOTES → (validateForm d).notes = some "Max 2000 characters.") ∧
    (d.notes.length ≤ MAX_NOTES → (validateForm d).notes = none) ∧
    (jsTrim d.title ≠ "" → d.title.length ≤ MAX_TITLE → (validateForm d).title = none) := by
  unfold validateForm
  split_ifs with h1 h2 h3 h3 h2 h3 h3 <;> simp_all

/-- C5 witness: a draft with an empty title is rejected with the required
message. -/
theorem claim5_witness :
    (validateForm ⟨"", "Medium", "Internal", "", "", "Backlog"⟩).title =
      some "Title is required." :=
  (claim5_validateForm ⟨"", "Medium", "Internal", "", "", "Backlog"⟩).2.1 rfl (by decide)

/-- C2: `moveTask` with direction `-1` on a task at the first stage
(`"Backlog"`), and with direction `+1` on a task at the last stage
(`"Completed"`), leaves the collection unchanged. -/
theorem claim2_moveStage_ends_noop (tasks : List Task) (id now : String) :
    ((∀ x ∈ tasks, x.id = id → x.stage = "Backlog") →
      moveTask tasks id (-1) now = tasks) ∧
    ((∀ x ∈ tasks, x.id = id → x.stage = "Completed") →
      moveTask tasks id 1 now = tasks) := by
  constructor
  · intro h
    apply map_eq_self_of
    intro x hx
    unfold moveTaskOne
    by_cases hid : x.id = id
    · have hs := h x hx hid
      simp only [hid, beq_self_eq_true, if_true, hs]
      rfl
    · simp [hid]
  · intro h
    apply map_eq_self_of
    intro x hx
    unfold moveTaskOne
    by_cases hid : x.id = id
    · have hs := h x hx hid
      simp only [hid, beq_self_eq_true, if_true, hs]
      rfl
    · simp [hid]

/-- C2 witness: at both boundary stages the move is a no-op on a concrete
collection. -/
theorem claim2_witness :
    moveTask [⟨"a", "T", "Medium", "Internal", "", "", "Backlog", "c", none⟩]
      "a" (-1) "now" =
      [⟨"a", "T", "Medium", "Internal", "", "", "Backlog", "c", none⟩] :=
  (claim2_moveStage_ends_noop
    [⟨"a", "T", "Medium", "Internal", "", "", "Backlog", "c", none⟩] "a" "now").1
    (by decide)

/-- C10: mutation operations addressed at an identifier not present in the
collection leave the collection unchanged (`update` with a valid draft,
`moveStage` with any direction, `setNotes` with text within the limit). -/
theorem claim10_absent_id_noop (tasks : List Task) (id : String) (d : Draft)
    (dir : Int) (now text : String)
    (h : ∀ x ∈ tasks, x.id ≠ id)
    (hv : (validateForm d).isEmpty = true)
    (ht : text.length ≤ MAX_NOTES) :
    updateTask tasks id d = tasks ∧ moveTask tasks id dir now = tasks ∧
      saveNote tasks id text = tasks := by
  refine ⟨?_, ?_, ?_⟩
  · unfold updateTask
    rw [if_pos (by simp [hv])]
    apply map_eq_self_of
    intro x hx
    simp [updateTaskOne, h x hx]
  · apply map_eq_self_of
    intro x hx
    simp [moveTaskOne, h x hx]
  · unfold saveNote
    rw [if_neg (by omega)]
    apply map_eq_self_of
    intro x hx
    simp [saveNoteOne, h x hx]

/-- C10 witness: on a concrete collection an absent id leaves all three
operations as the identity. -/
theorem claim10_witness :
    updateTask [⟨"a", "T", "Medium", "Internal", "", "", "Backlog", "c", none⟩]
        "z" ⟨"U", "High", "Internal", "", "", "Completed"⟩ =
      [⟨"a", "T", "Medium", "Internal", "", "", "Backlog", "c", none⟩] :=
  (claim10_absent_id_noop
    [⟨"a", "T", "Medium", "Internal", "", "", "Backlog", "c", none⟩]
    "z" ⟨"U", "High", "Internal", "", "", "Completed"⟩ 1 "now" "x"
    (by decide) (by decide) (by decide)).1

/-- C3: with a draft that passes validation, `updateTask` replaces exactly
the six editable fields of the task with the given id, preserves that task's
`id`, `createdAt` and `completedAt`, and leaves every other task
unchanged. -/
theorem claim3_update_frame (tasks : List Task) (id : String) (d : Draft)
    (hv : (validateForm d).isEmpty = true) :
    List.Forall₂ (fun x y =>
        (x.id ≠ id → y = x) ∧
        (x.id = id → y.title = d.title ∧ y.priority = d.priority ∧
          y.category = d.category ∧ y.due = d.due ∧ y.notes = d.notes ∧
          y.stage = d.stage ∧ y.id = x.id ∧ y.createdAt = x.createdAt ∧
          y.completedAt = x.completedAt))
      tasks (updateTask tasks id d) := by
  unfold updateTask
  rw [if_pos (by simp [hv])]
  rw [List.forall₂_map_right_iff, List.forall₂_same]
  intro x _
  constructor
  · intro hne
    simp [updateTaskOne, hne]
  · intro heq
    simp [updateTaskOne, heq]

/-- C3 witness: a concrete update replaces the editable fields and keeps the
rest. -/
theorem claim3_witness :
    List.Forall₂ (fun x y =>
        (x.id ≠ "a" → y = x) ∧
        (x.id = "a" → y.title = "U" ∧ y.priority = "High" ∧
          y.category = "Internal" ∧ y.due = "" ∧ y.notes = "n" ∧
          y.stage = "In Progress" ∧ y.id = x.id ∧ y.createdAt = x.createdAt ∧
          y.completedAt = x.completedAt))
      [⟨"a", "T", "Medium", "Internal", "", "", "Backlog", "c", none⟩]
      (updateTask [⟨"a", "T", "Medium", "Internal", "", "", "Backlog", "c", none⟩]
        "a" ⟨"U", "High", "Internal", "", "n", "In Progress"⟩) :=
  claim3_update_frame
    [⟨"a", "T", "Medium", "Internal", "", "", "Backlog", "c", none⟩]
    "a" ⟨"U", "High", "Internal", "", "n", "In Progress"⟩ (by decide)

/-- C4: any task changed by `moveTask` or `setStage` obeys the completion
rule — `completedAt` is stamped with `now` exactly when the resulting stage
is `"Completed"` and cleared otherwise — `setStage` sets the stage to the
target column, and `setStage` is a no-op when the dragged task's stage
already equals the target column. -/
theorem claim4_stage_ops (tasks : List Task) (id col now : String) (dir : Int) :
    (∀ y ∈ moveTask tasks id dir now, y ∈ tasks ∨
      (y.id = id ∧ y.completedAt = (if y.stage = "Completed" then some now else none))) ∧
    (∀ y ∈ setStage tasks id col now, y ∈ tasks ∨
      (y.id = id ∧ y.stage = col ∧
        y.completedAt = (if col = "Completed" then some now else none))) ∧
    (∀ x, tasks.find? (fun t => t.id == id) = some x → x.stage = col →
      setStage tasks id col now = tasks) := by
  refine ⟨?_, ?_, ?_⟩
  · intro y hy
    rcases List.mem_map.1 hy with ⟨x, hx, hxy⟩
    unfold moveTaskOne at hxy
    by_cases hid : x.id = id
    · rw [if_pos (by simp [hid])] at hxy
      rcases hc : colAt (jsIndexOf COLUMNS x.stage + dir) with _ | next
      · rw [hc] at hxy
        exact Or.inl (hxy ▸ hx)
      · rw [hc] at hxy
        right
        subst hxy
        refine ⟨hid, ?_⟩
        by_cases hnext : next = "Completed" <;> simp [hnext]
    · rw [if_neg (by simp [hid])] at hxy
      exact Or.inl (hxy ▸ hx)
  · intro y hy
    rcases hf : tasks.find? (fun t => t.id == id) with _ | task
    · simp only [setStage, hf] at hy
      exact Or.inl hy
    · simp only [setStage, hf] at hy
      by_cases hcol : task.stage = col
      · rw [if_neg (by simp [hcol])] at hy
        exact Or.inl hy
      · rw [if_pos (by simp [hcol])] at hy
        rcases List.mem_map.1 hy with ⟨x, hx, hxy⟩
        unfold setStageOne at hxy
        by_cases hid : x.id = id
        · rw [if_pos (by simp [hid])] at hxy
          right
          subst hxy
          refine ⟨hid, rfl, ?_⟩
          by_cases hc : col = "Completed" <;> simp [hc]
        · rw [if_neg (by simp [hid])] at hxy
          exact Or.inl (hxy ▸ hx)
  · intro x hfind hstage
    simp only [setStage, hfind]
    rw [if_neg (by simp [hstage])]

/-- C4 witness: dropping a task onto the column it already occupies changes
nothing. -/
theorem claim4_witness :
    setStage [⟨"a", "T", "Medium", "Internal", "", "", "Backlog", "c", none⟩]
      "a" "Backlog" "now" =
      [⟨"a", "T", "Medium", "Internal", "", "", "Backlog", "c", none⟩] :=
  (claim4_stage_ops
    [⟨"a", "T", "Medium", "Internal", "", "", "Backlog", "c", none⟩]
    "a" "Backlog" "now" 1).2.2
    ⟨"a", "T", "Medium", "Internal", "", "", "Backlog", "c", none⟩ rfl rfl

/-- C8: the completion percentage is the half-up rounding of
`100 * completedCount / totalCount`, is `0` on the empty collection, and is
`33` for three tasks of which one is completed. -/
theorem claim8_pct (tasks : List Task) :
    (tasks.length ≠ 0 →
      pct tasks = round ((100 * (completedCount tasks : ℚ)) / (tasks.length : ℚ))) ∧
    (tasks.length = 0 → pct tasks = 0) ∧
    (tasks.length = 3 → completedCount tasks = 1 → pct tasks = 33) := by
  refine ⟨?_, ?_, ?_⟩
  · intro h
    unfold pct
    rw [if_neg h]
    congr 1
    ring
  · intro h
    unfold pct
    rw [if_pos h]
  · intro h3 h1
    unfold pct
    rw [if_neg (by omega), h3, h1]
    rw [show ((1 : Nat) : ℚ) / ((3 : Nat) : ℚ) * 100 = 100 / 3 by push_cast; ring]
    rw [round_eq]
    norm_num

/-- C8 witness: a concrete three-task collection with one completed task has
completion percentage 33. -/
theorem claim8_witness :
    pct [⟨"a", "T", "M", "I", "", "", "Completed", "c", some "n"⟩,
         ⟨"b", "T", "M", "I", "", "", "Backlog", "c", none⟩,
         ⟨"c", "T", "M", "I", "", "", "Backlog", "c", none⟩] = 33 :=
  (claim8_pct
    [⟨"a", "T", "M", "I", "", "", "Completed", "c", some "n"⟩,
     ⟨"b", "T", "M", "I", "", "", "Backlog", "c", none⟩,
     ⟨"c", "T", "M", "I", "", "", "Backlog", "c", none⟩]).2.2 rfl rfl

/-- C7: `isOverdue` is false when the due string is empty or the stage is
`"Completed"`; otherwise, when the due string parses to a valid date, it is
true exactly when that date's day number is strictly less than today's; in
particular a completed task is never overdue. -/
theorem claim7_isOverdue (due stage : String) (today : Int) :
    ((due = "" ∨ stage = "Completed") → isOverdue due stage today = false) ∧
    (∀ n : Int, parseLocalDate due = some (JSDate.valid n) → stage ≠ "Completed" →
      (isOverdue due stage today = true ↔ n < today)) ∧
    (stage = "Completed" → isOverdue due stage today = false) := by
  refine ⟨?_, ?_, ?_⟩
  · intro h
    unfold isOverdue
    rcases h with h | h <;> simp [h]
  · intro n hp hs
    have hdue : due ≠ "" := by
      intro he
      rw [he] at hp
      simp [parseLocalDate] at hp
    unfold isOverdue
    rw [if_neg (by simp [hdue, hs]), hp]
    simp [jsDateLtDay]
  · intro h
    unfold isOverdue
    simp [h]

/-- C7 witness: a backlog task due 2020-01-01 is overdue on a later day, via
the parsed day number 18262. -/
theorem claim7_witness : isOverdue "2020-01-01" "Backlog" 20000 = true :=
  ((claim7_isOverdue "2020-01-01" "Backlog" 20000).2.1 18262 (by decide)
    (by decide)).mpr (by decide)

/-- C9: on a non-empty selection the export succeeds and projects each
selected task, in order, into the fixed columns Task Name, Category,
Priority, Stage, Due Date, Notes, Created, Completed, where the three date
columns go through `formatDate` and the Completed column is empty when
`completedAt` is absent. -/
theorem claim9_export (render : JSDate → String) (tasks : List Task) (scope : String)
    (hne : (if scope == "completed" then tasks.filter (fun x => x.stage == "Completed")
            else tasks) ≠ []) :
    ∃ rows, exportReport render tasks scope = Except.ok rows ∧
      List.Forall₂ (fun x r =>
          r.taskName = x.title ∧ r.category = x.category ∧ r.priority = x.priority ∧
          r.stage = x.stage ∧ r.dueDate = formatDate render x.due ∧ r.notes = x.notes ∧
          r.created = formatDate render x.createdAt ∧
          (x.completedAt = none → r.completed = "") ∧
          (∀ s, x.completedAt = some s → r.completed = formatDate render s))
        (if scope == "completed" then tasks.filter (fun x => x.stage == "Completed")
         else tasks)
        rows := by
  refine ⟨(if scope == "completed" then tasks.filter (fun x => x.stage == "Completed")
           else tasks).map (projectRow render), ?_, ?_⟩
  · unfold exportReport
    rw [if_neg (by simpa [List.isEmpty_iff] using hne)]
  · rw [List.forall₂_map_right_iff, List.forall₂_same]
    intro x _
    refine ⟨rfl, rfl, rfl, rfl, rfl, rfl, rfl, ?_, ?_⟩
    · intro hc
      simp [projectRow, hc]
    · intro s hc
      simp [projectRow, hc]

/-- C9 witness: exporting one task without a completion timestamp yields its
row with an empty Completed column. -/
theorem claim9_witness :
    ∃ rows, exportReport (fun _ => "d")
        [⟨"a", "T", "Medium", "Internal", "2020-01-01", "n", "Backlog", "c", none⟩]
        "all" = Except.ok rows ∧
      List.Forall₂ (fun (x : Task) (r : Row) =>
          r.taskName = x.title ∧ r.category = x.category ∧ r.priority = x.priority ∧
          r.stage = x.stage ∧ r.dueDate = formatDate (fun _ => "d") x.due ∧ r.notes = x.notes ∧
          r.created = formatDate (fun _ => "d") x.createdAt ∧
          (x.completedAt = none → r.completed = "") ∧
          (∀ s, x.completedAt = some s → r.completed = formatDate (fun _ => "d") s))
        (if "all" == "completed"
         then List.filter (fun x => x.stage == "Completed")
           [⟨"a", "T", "Medium", "Internal", "2020-01-01", "n", "Backlog", "c", none⟩]
         else [⟨"a", "T", "Medium", "Internal", "2020-01-01", "n", "Backlog", "c", none⟩])
        rows :=
  claim9_export (fun _ => "d")
    [⟨"a", "T", "Medium", "Internal", "2020-01-01", "n", "Backlog", "c", none⟩]
    "all" (by decide)

/-- Decoding inverts encoding on a single task record. -/
theorem decodeTask_encodeTask (t : Task) : decodeTask (encodeTask t) = some t := by
  obtain ⟨id, title, priority, category, due, notes, stage, createdAt, completedAt⟩ := t
  cases completedAt <;> rfl

/-- C6: parsing the serialised collection recovers it field for field, and
re-serialising what was loaded reproduces the stored representation. -/
theorem claim6_roundtrip (C : List Task) :
    decodeTasks (encodeTasks C) = some C ∧
    (decodeTasks (encodeTasks C)).map encodeTasks = some (encodeTasks C) := by
  have h : decodeTasks (encodeTasks C) = some C := by
    induction C with
    | nil => rfl
    | cons t ts ih =>
        simp only [encodeTasks, decodeTasks, List.map_cons, decodeList,
          decodeTask_encodeTask]
        simp only [encodeTasks, decodeTasks] at ih
        rw [ih]
  exact ⟨h, by rw [h]; rfl⟩

/-- `InvariantB` unfolded to a statement about each task. -/
theorem invariantB_iff (tasks : List Task) :
    InvariantB tasks = true ↔
      ∀ t ∈ tasks, t.completedAt.isSome = (t.stage == "Completed") := by
  unfold InvariantB
  rw [List.all_eq_true]
  constructor
  · intro h t ht
    exact beq_iff_eq.1 (h t ht)
  · intro h t ht
    exact beq_iff_eq.2 (h t ht)

/-- One good operation preserves the completion invariant. -/
theorem invariant_applyOp (tasks : List Task) (op : Op)
    (hg : goodOp op = true) (hi : InvariantB tasks = true) :
    InvariantB (applyOp tasks op) = true := by
  rw [invariantB_iff] at hi ⊢
  cases op with
  | createOp d newId now =>
      intro t ht
      simp only [applyOp, createTask] at ht
      by_cases hv : (validateForm d).isEmpty = true
      · rw [if_pos (by simp [hv])] at ht
        rcases List.mem_append.1 ht with h | h
        · exact hi t h
        · simp only [List.mem_singleton] at h
          subst h
          simpa [goodOp] using hg
      · rw [if_neg (by simp [hv])] at ht
        exact hi t ht
  | updateOp id d => simp [goodOp] at hg
  | moveOp id dir now =>
      intro t ht
      rcases List.mem_map.1 ht with ⟨x, hx, hxt⟩
      unfold moveTaskOne at hxt
      by_cases hid : x.id = id
      · rw [if_pos (by simp [hid])] at hxt
        rcases hc : colAt (jsIndexOf COLUMNS x.stage + dir) with _ | next
        · rw [hc] at hxt
          exact hxt ▸ hi x hx
        · rw [hc] at hxt
          subst hxt
          cases hnext : (next == "Completed") <;> simp [hnext]
      · rw [if_neg (by simp [hid])] at hxt
        exact hxt ▸ hi x hx
  | dropOp id col now =>
      intro t ht
      unfold applyOp at ht
      rcases hf : tasks.find? (fun x => x.id == id) with _ | task
      · simp only [setStage, hf] at ht
        exact hi t ht
      · simp only [setStage, hf] at ht
        by_cases hcol : task.stage = col
        · rw [if_neg (by simp [hcol])] at ht
          exact hi t ht
        · rw [if_pos (by simp [hcol])] at ht
          rcases List.mem_map.1 ht with ⟨x, hx, hxt⟩
          unfold setStageOne at hxt
          by_cases hid : x.id = id
          · rw [if_pos (by simp [hid])] at hxt
            subst hxt
            cases hc : (col == "Completed") <;> simp [hc]
          · rw [if_neg (by simp [hid])] at hxt
            exact hxt ▸ hi x hx
  | noteOp id text =>
      intro t ht
      simp only [applyOp, saveNote] at ht
      by_cases hlen : text.length > MAX_NOTES
      · rw [if_pos hlen] at ht
        exact hi t ht
      · rw [if_neg hlen] at ht
        rcases List.mem_map.1 ht with ⟨x, hx, hxt⟩
        unfold saveNoteOne at hxt
        by_cases hid : x.id = id
        · rw [if_pos (by simp [hid])] at hxt
          subst hxt
          exact hi x hx
        · rw [if_neg (by simp [hid])] at hxt
          exact hxt ▸ hi x hx
  | delOp id =>
      intro t ht
      exact hi t (List.mem_of_mem_filter ht)

/-- C1 counterexample: from a collection satisfying the completion
invariant, a single `update` whose valid draft selects stage `"Completed"`
leaves `completedAt` absent, so the invariant fails after a mutation
sequence. -/
theorem claim1_counterexample :
    InvariantB [⟨"a", "T", "Medium", "Internal", "", "", "Backlog", "c", none⟩] = true ∧
    InvariantB (applyOps
      [⟨"a", "T", "Medium", "Internal", "", "", "Backlog", "c", none⟩]
      [Op.updateOp "a" ⟨"T", "Medium", "Internal", "", "", "Completed"⟩]) = false := by
  decide

/-- C1 (amended): starting from a collection satisfying the completion
invariant, every sequence of `moveStage`, `setStage`, `setNotes` and
`delete` operations, and of `create` operations whose draft stage is not
`"Completed"`, preserves it; `update` is excluded because it never touches
`completedAt` even when it changes the stage. -/
theorem claim1_invariant_amended (tasks : List Task) (ops : List Op)
    (h1 : InvariantB tasks = true) (h2 : ops.all goodOp = true) :
    InvariantB (applyOps tasks ops) = true := by
  induction ops generalizing tasks with
  | nil => exact h1
  | cons op ops ih =>
      rw [List.all_cons, Bool.and_eq_true] at h2
      exact ih (applyOp tasks op) (invariant_applyOp tasks op h2.1 h1) h2.2

/-- C1 witness: a concrete good sequence (create then advance to
Completed then drag back) keeps the invariant. -/
theorem claim1_amended_witness :
    InvariantB (applyOps
      [⟨"a", "T", "Medium", "Internal", "", "", "Review/QA", "c", none⟩]
      [Op.createOp ⟨"U", "High", "Internal", "", "", "Backlog"⟩ "b" "c2",
       Op.moveOp "a" 1 "t1",
       Op.dropOp "a" "Backlog" "t2",
       Op.noteOp "b" "note",
       Op.delOp "b"]) = true :=
  claim1_invariant_amended
    [⟨"a", "T", "Medium", "Internal", "", "", "Review/QA", "c", none⟩]
    [Op.createOp ⟨"U", "High", "Internal", "", "", "Backlog"⟩ "b" "c2",
     Op.moveOp "a" 1 "t1",
     Op.dropOp "a" "Backlog" "t2",
     Op.noteOp "b" "note",
     Op.delOp "b"]
    (by decide) (by decide)

end Kanban

